import Mathlib

/-!
Verification of the multi-channel WebSocket-to-TCP SPICE proxy
(`websocket-proxy-multi.py`).

The development shallowly embeds the proxy's data model and operations:
the request-path router (`parse_channel_info`), the per-connection
statistics (`ConnectionStats`, `to_dict`), the two byte pumps
(`tcp_to_ws`, `ws_to_tcp`), the registry lifecycle of
`proxy_connection`, the connection orchestrator (`handle_websocket`)
and the statistics push loop (`handle_stats`).  Machine-level details
that the claims do not depend on are noted at each definition.
-/

/-! ### Python string helpers

The router manipulates the request path with `str.lstrip`, `str.split`,
`str.rsplit`, `urllib.parse.parse_qs` and `int`.  These are modelled on
`List Char`.
-/

/-- `l.split(sep, 1)` when `sep` occurs: the pieces before and after the
first occurrence of `sep`; `none` when `sep` does not occur (this also
models the Python `sep in l` test). -/
def splitFirst (sep : Char) : List Char → Option (List Char × List Char)
  | [] => none
  | c :: rest =>
    if c == sep then some ([], rest)
    else
      match splitFirst sep rest with
      | some (a, b) => some (c :: a, b)
      | none => none

/-- `l.rsplit(sep, 1)` when `sep` occurs: the pieces before and after the
last occurrence of `sep`; `none` when `sep` does not occur. -/
def rsplitLast (sep : Char) : List Char → Option (List Char × List Char)
  | [] => none
  | c :: rest =>
    match rsplitLast sep rest with
    | some (a, b) => some (c :: a, b)
    | none => if c == sep then some ([], rest) else none

/-- Python `l.split(sep)` (unbounded): every piece between occurrences of
`sep`; the empty string splits to one empty piece. -/
def splitAllOn (sep : Char) : List Char → List (List Char)
  | [] => [[]]
  | c :: rest =>
    let r := splitAllOn sep rest
    if c == sep then [] :: r
    else
      match r with
      | a :: as => (c :: a) :: as
      | [] => [[c]]

/-- Value of one hexadecimal digit. -/
def hexVal (c : Char) : Option Nat :=
  if '0' ≤ c ∧ c ≤ '9' then some (c.toNat - 48)
  else if 'a' ≤ c ∧ c ≤ 'f' then some (c.toNat - 87)
  else if 'A' ≤ c ∧ c ≤ 'F' then some (c.toNat - 55)
  else none

/-- Percent-decoding as done by `urllib.parse.unquote`: a `%` followed by
two hex digits becomes the character with that code, anything else is
kept verbatim.  (Recombination of multi-byte UTF-8 percent sequences is
not modelled; no claim exercises it.) -/
def percentDecode : List Char → List Char
  | [] => []
  | '%' :: c1 :: c2 :: rest =>
    match hexVal c1, hexVal c2 with
    | some h1, some h2 => Char.ofNat (16 * h1 + h2) :: percentDecode rest
    | _, _ => '%' :: percentDecode (c1 :: c2 :: rest)
  | c :: rest => c :: percentDecode rest

/-- `urllib.parse.parse_qsl` value decoding: `+` becomes a space, then
percent sequences are decoded. -/
def unquotePlus (l : List Char) : List Char :=
  percentDecode (l.map fun c => if c == '+' then ' ' else c)

/-- Whitespace stripped by Python's `int()` (`str.strip` defaults). -/
def isPySpace (c : Char) : Bool :=
  c == ' ' || c == '\t' || c == '\n' || c == '\r' || c == '\x0B' || c == '\x0C'

/-- Strip `isPySpace` characters from both ends. -/
def stripWs (l : List Char) : List Char :=
  ((l.dropWhile isPySpace).reverse.dropWhile isPySpace).reverse

/-- Digit run of a Python integer literal after its first digit: decimal
digits with single underscores allowed between digits. -/
def pyDigitsLoop : Nat → List Char → Option Nat
  | acc, [] => some acc
  | acc, '_' :: c :: rest =>
    if c.isDigit then pyDigitsLoop (acc * 10 + (c.toNat - 48)) rest else none
  | _, ['_'] => none
  | acc, c :: rest =>
    if c.isDigit then pyDigitsLoop (acc * 10 + (c.toNat - 48)) rest else none

/-- Python `int(s)` on a decimal string: surrounding whitespace is
stripped, an optional sign precedes a non-empty digit run; `none` models
the `ValueError` raised on anything else. -/
def pyInt (l : List Char) : Option Int :=
  match stripWs l with
  | '+' :: c :: rest =>
    if c.isDigit then (pyDigitsLoop (c.toNat - 48) rest).map Int.ofNat else none
  | '-' :: c :: rest =>
    if c.isDigit then (pyDigitsLoop (c.toNat - 48) rest).map (fun n => -(n : Int))
    else none
  | ['+'] => none
  | ['-'] => none
  | c :: rest =>
    if c.isDigit then (pyDigitsLoop (c.toNat - 48) rest).map Int.ofNat else none
  | [] => none

/-- `urllib.parse.parse_qs` flattened to the ordered pair list produced
by `parse_qsl` with default arguments: the query splits on `&`; a piece
without `=` is skipped, a piece whose value is empty is skipped
(`keep_blank_values` is false); names and values are `+`/percent
decoded.  The dict view `params[k][0]` is the first pair with key `k`. -/
def parse_qsl (qs : List Char) : List (String × String) :=
  (splitAllOn '&' qs).filterMap fun nv =>
    if nv.isEmpty then none
    else
      match splitFirst '=' nv with
      | none => none
      | some (name, value) =>
        if value.isEmpty then none
        else some (String.mk (unquotePlus name), String.mk (unquotePlus value))

/-- `params[k][0]` together with the `k in params` test: the first value
recorded for key `k`, if any. -/
def qsFirst (params : List (String × String)) (k : String) : Option String :=
  (params.find? (fun p => p.1 == k)).map Prod.snd

/-! ### Configuration

`SPICE_HOST` and `CHANNEL_PORTS` are read from the environment with the
defaults below; the router receives them as an explicit configuration. -/

/-- Environment-derived configuration: the default SPICE host and the
channel-name → default-TCP-port table (`CHANNEL_PORTS`). -/
structure Config where
  spiceHost : String
  channelPorts : List (String × Int)
deriving DecidableEq

/-- The configuration produced by the source's environment defaults. -/
def defaultConfig : Config :=
  { spiceHost := "qemu-spice"
    channelPorts :=
      [("main", 5900), ("display", 5901), ("inputs", 5902),
       ("cursor", 5903), ("playback", 5904), ("record", 5905)] }

/-- `CHANNEL_PORTS.get(ch, dflt)`. -/
def channelPortOr (cfg : Config) (ch : String) (dflt : Int) : Int :=
  ((cfg.channelPorts.find? (fun p => p.1 == ch)).map Prod.snd).getD dflt

/-! ### Path router (`parse_channel_info`)

`.error` models the uncaught `ValueError` raised by `int()` on
malformed port text. -/

/-- Query branch of `parse_channel_info`
(`channel?host=H&port=P`): an empty channel part falls back to `main`;
a missing `host` parameter falls back to the configured SPICE host; a
present `port` parameter goes through `int()` (whose failure is the
parse error), a missing one through the channel table. -/
def parseQueryForm (cfg : Config) (channelPart queryString : List Char) :
    Except String (String × String × Int) :=
  let channelType : String :=
    if channelPart.isEmpty then "main" else String.mk channelPart
  let params := parse_qsl queryString
  let targetHost := (qsFirst params "host").getD cfg.spiceHost
  match qsFirst params "port" with
  | some v =>
    match pyInt v.data with
    | some n => .ok (channelType, targetHost, n)
    | none => .error ("invalid literal for int with base 10: " ++ v)
  | none => .ok (channelType, targetHost, channelPortOr cfg channelType 5900)

/-- Slash branch of `parse_channel_info` (`channel/host:port`): the
server spec is rsplit on its last `:`; without a `:` it is host-only
and the port falls back to the channel table. -/
def parseSlashForm (cfg : Config) (channelPart serverSpec : List Char) :
    Except String (String × String × Int) :=
  let channelType := String.mk channelPart
  match rsplitLast ':' serverSpec with
  | some (hostPart, portPart) =>
    match pyInt portPart with
    | some n => .ok (channelType, String.mk hostPart, n)
    | none => .error ("invalid literal for int with base 10: " ++ String.mk portPart)
  | none => .ok (channelType, String.mk serverSpec, channelPortOr cfg channelType 5900)

/-- Simple branch of `parse_channel_info` (`channel` or empty): empty
falls back to `main`; host is the configured default; port comes from
the channel table. -/
def parseSimpleForm (cfg : Config) (p : List Char) :
    Except String (String × String × Int) :=
  let channelType : String := if p.isEmpty then "main" else String.mk p
  .ok (channelType, cfg.spiceHost, channelPortOr cfg channelType 5900)

/-- Branch selection of `parse_channel_info` after the leading slashes
are stripped: query form when the path contains `?`, else slash form
when it contains `/`, else the simple form. -/
def parse_core (cfg : Config) (p : List Char) :
    Except String (String × String × Int) :=
  match splitFirst '?' p with
  | some (channelPart, queryString) => parseQueryForm cfg channelPart queryString
  | none =>
    match splitFirst '/' p with
    | some (channelPart, serverSpec) => parseSlashForm cfg channelPart serverSpec
    | none => parseSimpleForm cfg p

/-- `SpiceWebSocketProxy.parse_channel_info`: strip the leading slashes
(`path.lstrip('/')`) and resolve `(channel type, target host, target
port)` by the three grammars. -/
def parse_channel_info (cfg : Config) (path : String) :
    Except String (String × String × Int) :=
  parse_core cfg (path.data.dropWhile (fun c => c == '/'))

/-! ### Connection statistics

`ConnectionStats` counts transferred bytes and messages; timestamps come
from the event loop clock.  Python floats are idealised as rationals: no
claim concerns floating-point rounding. -/

/-- `ConnectionStats.__init__`: all counters zero, `start_time` is the
loop time at creation. -/
structure ConnectionStats where
  bytes_sent : Nat
  bytes_received : Nat
  messages_sent : Nat
  messages_received : Nat
  start_time : ℚ
deriving DecidableEq

/-- A fresh `ConnectionStats()` created at loop time `t`. -/
def ConnectionStats.init (t : ℚ) : ConnectionStats :=
  { bytes_sent := 0, bytes_received := 0, messages_sent := 0
    messages_received := 0, start_time := t }

/-- The dictionary produced by `ConnectionStats.to_dict`. -/
structure StatsDict where
  bytes_sent : Nat
  bytes_received : Nat
  messages_sent : Nat
  messages_received : Nat
  duration_seconds : ℚ
  throughput_mbps : ℚ
deriving DecidableEq

/-- `ConnectionStats.to_dict`, with `current_time` (the loop clock read
inside the method) passed explicitly: `duration` is `now - start_time`
and the throughput division is guarded by `duration > 0`. -/
def ConnectionStats.to_dict (s : ConnectionStats) (current_time : ℚ) : StatsDict :=
  let duration := current_time - s.start_time
  { bytes_sent := s.bytes_sent
    bytes_received := s.bytes_received
    messages_sent := s.messages_sent
    messages_received := s.messages_received
    duration_seconds := duration
    throughput_mbps :=
      if duration > 0 then
        ((s.bytes_sent : ℚ) + (s.bytes_received : ℚ)) * 8 / (duration * 1000000)
      else 0 }

/-! ### The byte pumps

`tcp_to_ws` reads 64 KiB chunks from the TCP socket until an empty read
and forwards each chunk as one WebSocket message; `ws_to_tcp` receives
WebSocket messages, encodes text frames to bytes, and writes each
payload whole to the TCP socket (`sendall`).  Each pump is a function of
the finite sequence of values its socket yields. -/

/-- A received WebSocket message: binary payload, or text (which
`ws_to_tcp` coerces with `str.encode()`, i.e. UTF-8). -/
inductive WsMessage where
  | binary (data : List Nat)
  | text (s : String)
deriving DecidableEq

/-- The byte payload of a message after the `isinstance(data, str)`
coercion in `ws_to_tcp`. -/
def WsMessage.payload : WsMessage → List Nat
  | .binary d => d
  | .text s => s.toUTF8.toList.map UInt8.toNat

/-- Counter update of one `tcp_to_ws` iteration after a non-empty read
(`stats.bytes_sent += len(data); stats.messages_sent += 1`). -/
def tcpStep (stats : ConnectionStats) (data : List Nat) : ConnectionStats :=
  { stats with
    bytes_sent := stats.bytes_sent + data.length
    messages_sent := stats.messages_sent + 1 }

/-- Counter update of one `ws_to_tcp` iteration
(`stats.bytes_received += len(data); stats.messages_received += 1`). -/
def wsStep (stats : ConnectionStats) (data : List Nat) : ConnectionStats :=
  { stats with
    bytes_received := stats.bytes_received + data.length
    messages_received := stats.messages_received + 1 }

/-- `SpiceWebSocketProxy.tcp_to_ws` over the finite sequence of chunks
the socket yields (each entry one `recv` result): an empty read breaks
the loop; a non-empty chunk is sent as one WebSocket message and the
counters increment.  Returns the messages sent, in order, and the final
stats. -/
def tcp_to_ws : List (List Nat) → ConnectionStats →
    List (List Nat) × ConnectionStats
  | [], stats => ([], stats)
  | data :: rest, stats =>
    if data = [] then ([], stats)
    else
      let r := tcp_to_ws rest (tcpStep stats data)
      (data :: r.1, r.2)

/-- `SpiceWebSocketProxy.ws_to_tcp` over the finite sequence of messages
received before the WebSocket closes: each payload is written whole to
the TCP socket (`sendall`) and the counters increment.  Returns the
byte sequences written, in order, and the final stats. -/
def ws_to_tcp : List WsMessage → ConnectionStats →
    List (List Nat) × ConnectionStats
  | [], stats => ([], stats)
  | m :: rest, stats =>
    let d := m.payload
    let r := ws_to_tcp rest (wsStep stats d)
    (d :: r.1, r.2)

/-! ### Interleaved pump steps

The two pumps of one connection run concurrently and share its
`ConnectionStats`.  An arbitrary interleaving of their iterations is a
list of events, each applying the corresponding counter update. -/

/-- One forwarding iteration of either pump of a connection. -/
inductive PumpEvent where
  | tcpForward (data : List Nat)
  | wsForward (m : WsMessage)
deriving DecidableEq

/-- The stats update performed by one pump iteration. -/
def applyEvent (s : ConnectionStats) : PumpEvent → ConnectionStats
  | .tcpForward d => tcpStep s d
  | .wsForward m => wsStep s m.payload

/-- Stats after a sequence of interleaved pump iterations. -/
def runEvents (s : ConnectionStats) (es : List PumpEvent) : ConnectionStats :=
  es.foldl applyEvent s

/-- Every intermediate stats value along a sequence of pump iterations,
starting state included. -/
def statsTrace (s : ConnectionStats) : List PumpEvent → List ConnectionStats
  | [] => [s]
  | e :: es => s :: statsTrace (applyEvent s e) es

/-- Pointwise order on the four counters of `ConnectionStats`. -/
def StatsLE (a b : ConnectionStats) : Prop :=
  a.bytes_sent ≤ b.bytes_sent ∧ a.bytes_received ≤ b.bytes_received ∧
    a.messages_sent ≤ b.messages_sent ∧ a.messages_received ≤ b.messages_received

instance : DecidablePred fun p : ConnectionStats × ConnectionStats => StatsLE p.1 p.2 :=
  fun _ => by unfold StatsLE; infer_instance

/-- Total bytes carried by the TCP-to-WebSocket iterations of an event
sequence. -/
def tcpBytesTotal (es : List PumpEvent) : Nat :=
  (es.map fun e =>
    match e with
    | .tcpForward d => d.length
    | .wsForward _ => 0).sum

/-- Total bytes carried by the WebSocket-to-TCP iterations of an event
sequence. -/
def wsBytesTotal (es : List PumpEvent) : Nat :=
  (es.map fun e =>
    match e with
    | .tcpForward _ => 0
    | .wsForward m => m.payload.length).sum

/-! ### Connection registry

`self.connections` is a Python dict from connection id to that
connection's `ConnectionStats`; it is modelled as an association list
whose keys the dict keeps unique. -/

/-- The registry `self.connections`. -/
abbrev Registry := List (String × ConnectionStats)

namespace Registry

/-- Dict assignment `reg[id] = s`: replace the value at an existing key
in place, else append the new binding. -/
def insert : Registry → String → ConnectionStats → Registry
  | [], id, s => [(id, s)]
  | (k, v) :: rest, id, s =>
    if k = id then (k, s) :: rest else (k, v) :: insert rest id s

/-- Dict deletion `del reg[id]`: drop the binding at `id` (the first
one, which under unique keys is the only one). -/
def erase : Registry → String → Registry
  | [], _ => []
  | (k, v) :: rest, id =>
    if k = id then rest else (k, v) :: erase rest id

/-- Membership test `id in reg` together with indexing `reg[id]`. -/
def lookupR (reg : Registry) (id : String) : Option ConnectionStats :=
  (reg.find? (fun p => p.1 == id)).map Prod.snd

/-- Number of bindings carrying key `id` (1 at most for a dict). -/
def countKey (reg : Registry) (id : String) : Nat :=
  (reg.map Prod.fst).count id

end Registry

/-! ### Relay lifecycle (`proxy_connection`)

`proxy_connection` inserts a fresh `ConnectionStats` under the
connection id, runs the two pumps (which mutate those stats), and in a
`finally` block logs the final snapshot and deletes the registry entry.
The relay body either completes or raises; the cleanup is the same
either way.  The in-place mutation of the shared stats object by the
pumps is modelled as re-binding the id to the evolved stats. -/

/-- How the relay body of `proxy_connection` (the `try` block) ends:
both pumps finished and the loser was cancelled, or an exception was
raised out of the body. -/
inductive RelayOutcome where
  | completed
  | raised (msg : String)
deriving DecidableEq

/-- Observable result of one `proxy_connection` call. -/
structure ProxyResult where
  /-- Registry just after the entry is created, as the relay starts. -/
  atRelayStart : Registry
  /-- Registry when the relay terminates, before the cleanup block. -/
  beforeCleanup : Registry
  /-- Registry after the `finally` cleanup. -/
  final : Registry
  /-- Snapshots written to the log by the cleanup block. -/
  logged : List StatsDict
  /-- Number of registry deletions performed. -/
  removals : Nat
deriving DecidableEq

/-- The `finally` block of `proxy_connection`: if the id is still
registered, take its final snapshot (`to_dict` at the current loop
time), log it, and delete the entry. -/
def proxyCleanup (reg2 : Registry) (cid : String) (atStart beforeCleanup : Registry)
    (now : ℚ) : ProxyResult :=
  match Registry.lookupR reg2 cid with
  | some s =>
    { atRelayStart := atStart, beforeCleanup := beforeCleanup
      final := Registry.erase reg2 cid
      logged := [s.to_dict now], removals := 1 }
  | none =>
    { atRelayStart := atStart, beforeCleanup := beforeCleanup
      final := reg2, logged := [], removals := 0 }

/-- `SpiceWebSocketProxy.proxy_connection`: create fresh stats at loop
time `t`, register them under `cid`, run the pumps over the interleaved
iterations `events` (stats mutate in place), and — whether the body
completed or raised — run the `finally` cleanup at loop time `now`. -/
def proxy_connection (reg : Registry) (cid : String) (t : ℚ)
    (events : List PumpEvent) (outcome : RelayOutcome) (now : ℚ) : ProxyResult :=
  let stats := ConnectionStats.init t
  let reg1 := Registry.insert reg cid stats
  let statsEnd := runEvents stats events
  let reg2 := Registry.insert reg1 cid statsEnd
  match outcome with
  | .completed => proxyCleanup reg2 cid reg1 reg2 now
  | .raised _ => proxyCleanup reg2 cid reg1 reg2 now

/-! ### Connection orchestrator (`handle_websocket`)

The orchestrator parses the path — outside any handler — then creates
the TCP socket, dials with a 10-second timeout, and on success runs
`proxy_connection`; dial failures close the WebSocket with code 1001
and a reason naming the target.  Blocking socket calls are recorded
with the execution context they run on: `recv` is dispatched through
`loop.run_in_executor(None, ...)` (the default bounded thread pool),
while `connect` is called directly in the coroutine, i.e. on the event
loop thread. -/

/-- Where a blocking call executes. -/
inductive ExecCtx where
  | eventLoop
  | workerPool
deriving DecidableEq

/-- A blocking socket operation of one connection. -/
inductive BlockingOp where
  | tcpRecv (maxBytes : Nat)
  | tcpConnect (host : String) (port : Int) (timeoutSecs : Nat)
deriving DecidableEq

/-- Outcome of the `tcp_socket.connect` call. -/
inductive DialResult where
  | success
  | timeoutErr
  | refusedErr (msg : String)
deriving DecidableEq

/-- The pool-executed `recv` dispatches that produced the TCP-side
iterations of an event sequence (one `run_in_executor` call per chunk
forwarded). -/
def tcpRecvOps (events : List PumpEvent) : List (BlockingOp × ExecCtx) :=
  events.filterMap fun e =>
    match e with
    | .tcpForward _ => some (BlockingOp.tcpRecv 65536, ExecCtx.workerPool)
    | .wsForward _ => none

/-- `connection_id = f"{remote_addr}-{channel_type}-{target_host}:{target_port}"`. -/
def connectionId (remoteAddr channelType targetHost : String) (targetPort : Int) :
    String :=
  remoteAddr ++ "-" ++ channelType ++ "-" ++ (targetHost ++ ":" ++ toString targetPort)

/-- Observable result of one `handle_websocket` call. -/
structure HandleResult where
  /-- Whether `socket.socket(...)` was ever executed. -/
  socketCreated : Bool
  /-- Number of `connect` calls performed. -/
  dialAttempts : Nat
  /-- Close frames the handler itself sent, as (code, reason). -/
  closesSent : List (Nat × String)
  /-- Number of registry insertions performed. -/
  registryInsertions : Nat
  /-- Registry after the handler returns. -/
  finalRegistry : Registry
  /-- Whether the path-resolution exception escaped the handler. -/
  parseExnPropagated : Bool
  /-- Whether the relay was run. -/
  relayed : Bool
  /-- Blocking socket calls of this connection, each with the execution
  context it ran on. -/
  blockingOps : List (BlockingOp × ExecCtx)
deriving DecidableEq

/-- `SpiceWebSocketProxy.handle_websocket`: `parse_channel_info` runs
before the `try` block, so its `ValueError` escapes the handler with no
socket created and no close frame sent by the handler.  On a parse
success the TCP socket is created, `connect` runs once, directly on the
event loop, under a 10-second timeout; a timeout closes the WebSocket
with code 1001 and reason `Connection timeout to host:port`, any other
dial failure with code 1001 and reason
`Failed to connect to host:port: msg`; on success `proxy_connection`
runs with the pool-executed `recv` dispatches of its egress pump. -/
def handle_websocket (cfg : Config) (reg : Registry) (remoteAddr path : String)
    (dial : DialResult) (events : List PumpEvent) (outcome : RelayOutcome)
    (t now : ℚ) : HandleResult :=
  match parse_channel_info cfg path with
  | .error _ =>
    { socketCreated := false, dialAttempts := 0, closesSent := []
      registryInsertions := 0, finalRegistry := reg
      parseExnPropagated := true, relayed := false, blockingOps := [] }
  | .ok (channelType, targetHost, targetPort) =>
    let cid := connectionId remoteAddr channelType targetHost targetPort
    let connectOp := (BlockingOp.tcpConnect targetHost targetPort 10, ExecCtx.eventLoop)
    match dial with
    | .timeoutErr =>
      { socketCreated := true, dialAttempts := 1
        closesSent :=
          [(1001, "Connection timeout to " ++ (targetHost ++ ":" ++ toString targetPort))]
        registryInsertions := 0, finalRegistry := reg
        parseExnPropagated := false, relayed := false, blockingOps := [connectOp] }
    | .refusedErr msg =>
      { socketCreated := true, dialAttempts := 1
        closesSent :=
          [(1001,
            "Failed to connect to " ++ (targetHost ++ ":" ++ toString targetPort) ++
              (": " ++ msg))]
        registryInsertions := 0, finalRegistry := reg
        parseExnPropagated := false, relayed := false, blockingOps := [connectOp] }
    | .success =>
      let pr := proxy_connection reg cid t events outcome now
      { socketCreated := true, dialAttempts := 1, closesSent := []
        registryInsertions := 1, finalRegistry := pr.final
        parseExnPropagated := false, relayed := true
        blockingOps := connectOp :: tcpRecvOps events }

/-! ### Statistics endpoint (`handle_stats`)

Once per loop iteration the handler serializes the registry snapshot,
the size of `self.active_proxies` and the loop time into one JSON
message, sends it, and sleeps one second; the loop ends when the send
hits the closed WebSocket.  The JSON object is modelled structurally
(`json.dumps` is an injective serialization the claims never compare
textually). -/

/-- The JSON object sent each second by the stats loop. -/
structure StatsMessage where
  connections : List (String × StatsDict)
  active_proxies : Nat
  timestamp : ℚ
deriving DecidableEq

/-- What one iteration of the stats loop observes: the registry, the
size of `self.active_proxies`, and the loop time. -/
structure LoopObs where
  reg : Registry
  activePairs : Nat
  now : ℚ
deriving DecidableEq

/-- An action the stats handler performs on its WebSocket. -/
inductive StatsAction where
  | send (m : StatsMessage)
  | sleep (secs : Nat)
  | close (code : Nat) (reason : String)
deriving DecidableEq

/-- The message built by one iteration of the stats loop: every
registered connection's `to_dict` snapshot under `connections`, the
relay-pair count under `active_proxies`, and the loop time. -/
def statsIteration (o : LoopObs) : StatsMessage :=
  { connections := o.reg.map fun p => (p.1, p.2.to_dict o.now)
    active_proxies := o.activePairs
    timestamp := o.now }

/-- `SpiceWebSocketProxy.handle_stats` as the sequence of actions it
performs, given the per-iteration observations until the client
disconnect ends the loop: a wrong path is closed with code 1002 at
once; otherwise each iteration sends one message and sleeps 1 s. -/
def handle_stats (path : String) (obs : List LoopObs) : List StatsAction :=
  if path ≠ "/stats" then [.close 1002 "Invalid stats path"]
  else (obs.map fun o => [StatsAction.send (statsIteration o), StatsAction.sleep 1]).flatten

/-- The messages a stats action sequence sends, in order. -/
def sentMessages (acts : List StatsAction) : List StatsMessage :=
  acts.filterMap fun a =>
    match a with
    | .send m => some m
    | _ => none

/-! ### Pump lemmas -/

theorem tcp_to_ws_msgs (chunks : List (List Nat)) (s : ConnectionStats)
    (h : ∀ c ∈ chunks, c ≠ []) :
    (tcp_to_ws (chunks ++ [[]]) s).1 = chunks := by
  induction chunks generalizing s with
  | nil => rfl
  | cons c rest ih =>
    have hc : c ≠ [] := h c (by simp)
    simp only [List.cons_append, tcp_to_ws, if_neg hc]
    exact congrArg (c :: ·) (ih (tcpStep s c) fun x hx => h x (by simp [hx]))

theorem ws_to_tcp_writes (msgs : List WsMessage) (s : ConnectionStats) :
    (ws_to_tcp msgs s).1 = msgs.map WsMessage.payload := by
  induction msgs generalizing s with
  | nil => rfl
  | cons m rest ih => simp only [ws_to_tcp, List.map_cons, ih]

theorem statsLE_refl (s : ConnectionStats) : StatsLE s s :=
  ⟨le_refl _, le_refl _, le_refl _, le_refl _⟩

theorem statsLE_trans {a b c : ConnectionStats} (h₁ : StatsLE a b)
    (h₂ : StatsLE b c) : StatsLE a c :=
  ⟨h₁.1.trans h₂.1, h₁.2.1.trans h₂.2.1, h₁.2.2.1.trans h₂.2.2.1,
    h₁.2.2.2.trans h₂.2.2.2⟩

theorem tcpStep_mono (s : ConnectionStats) (d : List Nat) :
    StatsLE s (tcpStep s d) := by
  refine ⟨?_, ?_, ?_, ?_⟩ <;> simp [tcpStep]

theorem wsStep_mono (s : ConnectionStats) (d : List Nat) :
    StatsLE s (wsStep s d) := by
  refine ⟨?_, ?_, ?_, ?_⟩ <;> simp [wsStep]

theorem applyEvent_mono (s : ConnectionStats) (e : PumpEvent) :
    StatsLE s (applyEvent s e) := by
  cases e with
  | tcpForward d => exact tcpStep_mono s d
  | wsForward m => exact wsStep_mono s m.payload

theorem tcp_to_ws_bytes (reads : List (List Nat)) (s : ConnectionStats) :
    (tcp_to_ws reads s).2.bytes_sent
      = s.bytes_sent + (((tcp_to_ws reads s).1).map List.length).sum := by
  induction reads generalizing s with
  | nil => simp [tcp_to_ws]
  | cons d rest ih =>
    by_cases hd : d = []
    · simp [tcp_to_ws, hd]
    · simp only [tcp_to_ws, if_neg hd, List.map_cons, List.sum_cons]
      rw [ih (tcpStep s d)]
      simp [tcpStep]
      omega

theorem ws_to_tcp_bytes (msgs : List WsMessage) (s : ConnectionStats) :
    (ws_to_tcp msgs s).2.bytes_received
      = s.bytes_received + (((ws_to_tcp msgs s).1).map List.length).sum := by
  induction msgs generalizing s with
  | nil => simp [ws_to_tcp]
  | cons m rest ih =>
    simp only [ws_to_tcp, List.map_cons, List.sum_cons]
    rw [ih (wsStep s m.payload)]
    simp [wsStep]
    omega

theorem tcp_to_ws_mono (reads : List (List Nat)) (s : ConnectionStats) :
    StatsLE s (tcp_to_ws reads s).2 := by
  induction reads generalizing s with
  | nil => exact statsLE_refl s
  | cons d rest ih =>
    by_cases hd : d = []
    · simp only [tcp_to_ws, if_pos hd]
      exact statsLE_refl s
    · simp only [tcp_to_ws, if_neg hd]
      exact statsLE_trans (tcpStep_mono s d) (ih (tcpStep s d))

theorem ws_to_tcp_mono (msgs : List WsMessage) (s : ConnectionStats) :
    StatsLE s (ws_to_tcp msgs s).2 := by
  induction msgs generalizing s with
  | nil => exact statsLE_refl s
  | cons m rest ih =>
    simp only [ws_to_tcp]
    exact statsLE_trans (wsStep_mono s m.payload) (ih (wsStep s m.payload))

theorem statsTrace_head (s : ConnectionStats) (es : List PumpEvent) :
    (statsTrace s es).head? = some s := by
  cases es <;> rfl

theorem statsTrace_chain (es : List PumpEvent) (s : ConnectionStats) :
    List.Chain' StatsLE (statsTrace s es) := by
  induction es generalizing s with
  | nil => simp [statsTrace]
  | cons e es ih =>
    rw [statsTrace]
    refine List.chain'_cons'.mpr ⟨?_, ih (applyEvent s e)⟩
    intro y hy
    rw [statsTrace_head] at hy
    cases hy
    exact applyEvent_mono s e

theorem runEvents_bytes_sent (es : List PumpEvent) (s : ConnectionStats) :
    (runEvents s es).bytes_sent = s.bytes_sent + tcpBytesTotal es := by
  induction es generalizing s with
  | nil => simp [runEvents, tcpBytesTotal]
  | cons e es ih =>
    simp only [runEvents, List.foldl_cons, tcpBytesTotal, List.map_cons,
      List.sum_cons] at ih ⊢
    rw [ih (applyEvent s e)]
    cases e with
    | tcpForward d => simp [applyEvent, tcpStep]; omega
    | wsForward m => simp [applyEvent, wsStep]

theorem runEvents_bytes_received (es : List PumpEvent) (s : ConnectionStats) :
    (runEvents s es).bytes_received = s.bytes_received + wsBytesTotal es := by
  induction es generalizing s with
  | nil => simp [runEvents, wsBytesTotal]
  | cons e es ih =>
    simp only [runEvents, List.foldl_cons, wsBytesTotal, List.map_cons,
      List.sum_cons] at ih ⊢
    rw [ih (applyEvent s e)]
    cases e with
    | tcpForward d => simp [applyEvent, tcpStep]
    | wsForward m => simp [applyEvent, wsStep]; omega

/-! ### Registry lemmas -/

theorem lookupR_insert (reg : Registry) (id : String) (s : ConnectionStats) :
    Registry.lookupR (Registry.insert reg id s) id = some s := by
  induction reg with
  | nil => simp [Registry.insert, Registry.lookupR]
  | cons p rest ih =>
    obtain ⟨k, v⟩ := p
    by_cases hk : k = id
    · subst hk
      simp [Registry.insert, Registry.lookupR]
    · simp only [Registry.insert, if_neg hk, Registry.lookupR] at ih ⊢
      simpa [List.find?_cons, hk] using ih

theorem lookupR_eq_none (reg : Registry) (id : String)
    (h : id ∉ reg.map Prod.fst) : Registry.lookupR reg id = none := by
  induction reg with
  | nil => rfl
  | cons p rest ih =>
    obtain ⟨k, v⟩ := p
    simp only [List.map_cons, List.mem_cons, not_or] at h
    have hk : ¬ k = id := fun hh => h.1 hh.symm
    simp only [Registry.lookupR] at ih ⊢
    simpa [List.find?_cons, hk] using ih h.2

theorem keys_insert (reg : Registry) (id : String) (s : ConnectionStats) :
    (Registry.insert reg id s).map Prod.fst =
      if id ∈ reg.map Prod.fst then reg.map Prod.fst
      else reg.map Prod.fst ++ [id] := by
  induction reg with
  | nil => simp [Registry.insert]
  | cons p rest ih =>
    obtain ⟨k, v⟩ := p
    by_cases hk : k = id
    · subst hk
      simp [Registry.insert]
    · simp only [Registry.insert, if_neg hk, List.map_cons, ih]
      by_cases hm : id ∈ rest.map Prod.fst
      · simp [hm, Ne.symm hk]
      · simp [hm, Ne.symm hk]

theorem nodupKeys_insert (reg : Registry) (id : String) (s : ConnectionStats)
    (h : (reg.map Prod.fst).Nodup) :
    ((Registry.insert reg id s).map Prod.fst).Nodup := by
  rw [keys_insert]
  by_cases hm : id ∈ reg.map Prod.fst
  · simpa [hm]
  · simp only [hm, if_false]
    exact h.append (List.nodup_singleton id)
      (by simpa [List.disjoint_singleton] using hm)

theorem keys_erase_sublist (reg : Registry) (id : String) :
    ((Registry.erase reg id).map Prod.fst).Sublist (reg.map Prod.fst) := by
  induction reg with
  | nil => simp [Registry.erase]
  | cons p rest ih =>
    obtain ⟨k, v⟩ := p
    by_cases hk : k = id
    · simp only [Registry.erase, if_pos hk, List.map_cons]
      exact (List.sublist_cons_self k (rest.map Prod.fst))
    · simp only [Registry.erase, if_neg hk, List.map_cons]
      exact ih.cons₂ k

theorem nodupKeys_erase (reg : Registry) (id : String)
    (h : (reg.map Prod.fst).Nodup) :
    ((Registry.erase reg id).map Prod.fst).Nodup :=
  h.sublist (keys_erase_sublist reg id)

theorem countKey_insert_self (reg : Registry) (id : String) (s : ConnectionStats)
    (h : (reg.map Prod.fst).Nodup) :
    Registry.countKey (Registry.insert reg id s) id = 1 := by
  induction reg with
  | nil => simp [Registry.insert, Registry.countKey]
  | cons p rest ih =>
    obtain ⟨k, v⟩ := p
    simp only [List.map_cons, List.nodup_cons] at h
    by_cases hk : k = id
    · subst hk
      have h0 : (rest.map Prod.fst).count k = 0 :=
        List.count_eq_zero.mpr h.1
      simp only [Registry.insert, if_pos rfl, Registry.countKey, List.map_cons,
        List.count_cons, h0, beq_self_eq_true, if_true]
    · have hb : (k == id) = false := beq_eq_false_iff_ne.mpr hk
      simp only [Registry.insert, if_neg hk, Registry.countKey, List.map_cons,
        List.count_cons, hb, if_false]
      simpa [Registry.countKey] using ih h.2

theorem countKey_insert_other (reg : Registry) (id : String)
    (s : ConnectionStats) (k : String) (hk : k ≠ id) :
    Registry.countKey (Registry.insert reg id s) k = Registry.countKey reg k := by
  have hb : (id == k) = false := beq_eq_false_iff_ne.mpr (Ne.symm hk)
  induction reg with
  | nil => simp [Registry.insert, Registry.countKey, List.count_cons, hb]
  | cons p rest ih =>
    obtain ⟨k', v⟩ := p
    by_cases h' : k' = id
    · subst h'
      simp [Registry.insert, Registry.countKey, List.count_cons]
    · simp only [Registry.insert, if_neg h', Registry.countKey, List.map_cons,
        List.count_cons]
      simpa [Registry.countKey] using ih

theorem countKey_erase_self (reg : Registry) (id : String)
    (h : (reg.map Prod.fst).Nodup) :
    Registry.countKey (Registry.erase reg id) id = 0 := by
  induction reg with
  | nil => rfl
  | cons p rest ih =>
    obtain ⟨k, v⟩ := p
    simp only [List.map_cons, List.nodup_cons] at h
    by_cases hk : k = id
    · subst hk
      simp only [Registry.erase, if_pos rfl]
      exact List.count_eq_zero.mpr h.1
    · have hb : (k == id) = false := beq_eq_false_iff_ne.mpr hk
      simp only [Registry.erase, if_neg hk, Registry.countKey, List.map_cons,
        List.count_cons, hb, if_false]
      simpa [Registry.countKey] using ih h.2

theorem countKey_erase_other (reg : Registry) (id k : String) (hk : k ≠ id) :
    Registry.countKey (Registry.erase reg id) k = Registry.countKey reg k := by
  induction reg with
  | nil => rfl
  | cons p rest ih =>
    obtain ⟨k', v⟩ := p
    by_cases h' : k' = id
    · subst h'
      have hb : (k' == k) = false := beq_eq_false_iff_ne.mpr (Ne.symm hk)
      simp [Registry.erase, Registry.countKey, List.count_cons, hb]
    · simp only [Registry.erase, if_neg h', Registry.countKey, List.map_cons,
        List.count_cons]
      simpa [Registry.countKey] using ih

theorem lookupR_erase_self (reg : Registry) (id : String)
    (h : (reg.map Prod.fst).Nodup) :
    Registry.lookupR (Registry.erase reg id) id = none := by
  induction reg with
  | nil => rfl
  | cons p rest ih =>
    obtain ⟨k, v⟩ := p
    simp only [List.map_cons, List.nodup_cons] at h
    by_cases hk : k = id
    · subst hk
      exact by
        simp only [Registry.erase, if_pos rfl]
        exact lookupR_eq_none rest k h.1
    · simp only [Registry.erase, if_neg hk, Registry.lookupR] at ih ⊢
      simpa [List.find?_cons, hk] using ih h.2

/-- The two relay outcomes run the identical `finally` cleanup. -/
theorem proxy_connection_eq_cleanup (reg : Registry) (cid : String) (t : ℚ)
    (events : List PumpEvent) (outcome : RelayOutcome) (now : ℚ) :
    proxy_connection reg cid t events outcome now =
      proxyCleanup
        (Registry.insert (Registry.insert reg cid (ConnectionStats.init t)) cid
          (runEvents (ConnectionStats.init t) events))
        cid
        (Registry.insert reg cid (ConnectionStats.init t))
        (Registry.insert (Registry.insert reg cid (ConnectionStats.init t)) cid
          (runEvents (ConnectionStats.init t) events))
        now := by
  cases outcome <;> rfl

/-! ### Claim theorems -/

/-- C1: round-trip byte fidelity of the relay.  For every finite
sequence of non-empty chunks the egress pump reads before the empty
read that ends it, the concatenation of the WebSocket messages it sends
equals the concatenation of the chunks in read order; and for every
finite sequence of WebSocket messages the ingress pump receives (text
coerced to its byte encoding), the concatenation of the byte sequences
written to the TCP socket equals the concatenation of the payloads in
receive order. -/
theorem relay_round_trip (chunks : List (List Nat)) (msgs : List WsMessage)
    (s₀ s₁ : ConnectionStats) (h : ∀ c ∈ chunks, c ≠ []) :
    ((tcp_to_ws (chunks ++ [[]]) s₀).1).flatten = chunks.flatten ∧
    ((ws_to_tcp msgs s₁).1).flatten = (msgs.map WsMessage.payload).flatten := by
  constructor
  · rw [tcp_to_ws_msgs chunks s₀ h]
  · rw [ws_to_tcp_writes]

theorem relay_round_trip_witness :
    ((tcp_to_ws ([[1, 2], [3]] ++ [[]]) (ConnectionStats.init 0)).1).flatten
        = ([[1, 2], [3]] : List (List Nat)).flatten ∧
    ((ws_to_tcp [WsMessage.binary [7], WsMessage.text "A"]
        (ConnectionStats.init 0)).1).flatten
        = ([WsMessage.binary [7], WsMessage.text "A"].map WsMessage.payload).flatten :=
  relay_round_trip [[1, 2], [3]] [WsMessage.binary [7], WsMessage.text "A"]
    (ConnectionStats.init 0) (ConnectionStats.init 0) (by decide)

/-! ### Router lemmas -/

theorem splitFirst_append (sep : Char) (a b : List Char) (h : sep ∉ a) :
    splitFirst sep (a ++ sep :: b) = some (a, b) := by
  induction a with
  | nil => simp [splitFirst]
  | cons c rest ih =>
    simp only [List.mem_cons, not_or] at h
    have hc : (c == sep) = false := beq_eq_false_iff_ne.mpr fun hh => h.1 hh.symm
    simp [splitFirst, hc, ih h.2]

theorem dropWhile_no_slash (ch q : List Char) (h : '/' ∉ ch)
    (hq : q.dropWhile (fun c => c == '/') = q) :
    (ch ++ q).dropWhile (fun c => c == '/') = ch ++ q := by
  cases ch with
  | nil => simpa using hq
  | cons c rest =>
    have hc : (c == '/') = false :=
      beq_eq_false_iff_ne.mpr fun hh => h (by simp [hh])
    simp [List.dropWhile_cons, hc]

/-- C3: path resolution is the pure function `parse_channel_info` that
strips leading slashes and tries the query, slash and simple grammars
in that order, filling absent components from the configured default
host and the channel's configured default port: the spec's three
examples resolve as stated, absent `host` or `port` components default
correctly, and a leading slash never changes the result. -/
theorem path_router_resolution (p : String) :
    parse_channel_info defaultConfig "display?host=10.0.0.5&port=5901"
      = .ok ("display", "10.0.0.5", 5901) ∧
    parse_channel_info defaultConfig "inputs/vmhost:5902"
      = .ok ("inputs", "vmhost", 5902) ∧
    parse_channel_info defaultConfig "" = .ok ("main", "qemu-spice", 5900) ∧
    parse_channel_info defaultConfig "/" = .ok ("main", "qemu-spice", 5900) ∧
    parse_channel_info defaultConfig "inputs?host=h" = .ok ("inputs", "h", 5902) ∧
    parse_channel_info defaultConfig "display" = .ok ("display", "qemu-spice", 5901) ∧
    parse_channel_info defaultConfig ("/" ++ p) = parse_channel_info defaultConfig p := by
  refine ⟨by rfl, by rfl, by rfl, by rfl, by rfl, by rfl, ?_⟩
  have hd : ("/" ++ p).data.dropWhile (fun c => c == '/')
      = p.data.dropWhile (fun c => c == '/') := by
    rw [String.data_append]
    show List.dropWhile _ ('/' :: p.data) = _
    simp [List.dropWhile_cons]
  show parse_core _ _ = parse_core _ _
  rw [hd]

/-- C10: a present-but-empty `port` value in the query form is dropped
by query parsing, so resolution succeeds with the channel's configured
default port — in contrast to non-integer port text, which is a
resolution error. -/
theorem empty_port_value_uses_default (cfg : Config) (ch : List Char)
    (h1 : '?' ∉ ch) (h2 : '/' ∉ ch) :
    parse_channel_info cfg (String.mk (ch ++ "?port=".data))
      = .ok (if ch.isEmpty then "main" else String.mk ch, cfg.spiceHost,
          channelPortOr cfg (if ch.isEmpty then "main" else String.mk ch) 5900) ∧
    parse_channel_info defaultConfig "main?port="
      = .ok ("main", "qemu-spice", 5900) ∧
    (parse_channel_info defaultConfig "main?port=abc").isOk = false := by
  refine ⟨?_, by rfl, by rfl⟩
  have hq : "?port=".data = '?' :: "port=".data := rfl
  have hstrip :
      (ch ++ '?' :: "port=".data).dropWhile (fun c => c == '/')
        = ch ++ '?' :: "port=".data :=
    dropWhile_no_slash ch ('?' :: "port=".data) h2 (by rfl)
  have hsplit : splitFirst '?' (ch ++ '?' :: "port=".data)
      = some (ch, "port=".data) := splitFirst_append '?' ch "port=".data h1
  show parse_core cfg
      ((ch ++ "?port=".data).dropWhile (fun c => c == '/')) = _
  rw [hq, hstrip]
  simp only [parse_core, hsplit]
  rfl

theorem empty_port_value_uses_default_witness :
    parse_channel_info defaultConfig (String.mk ("main".data ++ "?port=".data))
      = .ok (if "main".data.isEmpty then "main" else String.mk "main".data,
          defaultConfig.spiceHost,
          channelPortOr defaultConfig
            (if "main".data.isEmpty then "main" else String.mk "main".data) 5900) ∧
    parse_channel_info defaultConfig "main?port="
      = .ok ("main", "qemu-spice", 5900) ∧
    (parse_channel_info defaultConfig "main?port=abc").isOk = false :=
  empty_port_value_uses_default defaultConfig "main".data (by decide) (by decide)

/-- C5: registry lifecycle invariant.  For every `proxy_connection`
call on a registry with unique keys, exactly one entry for the
connection id exists at relay start and still when the relay
terminates; the `finally`-equivalent cleanup removes it exactly once,
identically whether the relay body completed or raised; key uniqueness
is preserved at every stage; after removal no entry for the id remains
and only the final stats snapshot is logged; entries of other
connections are untouched. -/
theorem registry_lifecycle (reg : Registry) (cid : String) (t : ℚ)
    (events : List PumpEvent) (outcome : RelayOutcome) (now : ℚ)
    (m : String) (k : String) (h : (reg.map Prod.fst).Nodup) :
    Registry.countKey (proxy_connection reg cid t events outcome now).atRelayStart cid = 1 ∧
    Registry.countKey (proxy_connection reg cid t events outcome now).beforeCleanup cid = 1 ∧
    Registry.countKey (proxy_connection reg cid t events outcome now).final cid = 0 ∧
    Registry.lookupR (proxy_connection reg cid t events outcome now).final cid = none ∧
    (proxy_connection reg cid t events outcome now).removals = 1 ∧
    (proxy_connection reg cid t events outcome now).logged
      = [(runEvents (ConnectionStats.init t) events).to_dict now] ∧
    ((proxy_connection reg cid t events outcome now).atRelayStart.map Prod.fst).Nodup ∧
    ((proxy_connection reg cid t events outcome now).beforeCleanup.map Prod.fst).Nodup ∧
    ((proxy_connection reg cid t events outcome now).final.map Prod.fst).Nodup ∧
    proxy_connection reg cid t events (RelayOutcome.raised m) now
      = proxy_connection reg cid t events RelayOutcome.completed now ∧
    (k ≠ cid →
      Registry.countKey (proxy_connection reg cid t events outcome now).final k
        = Registry.countKey reg k) := by
  have h1 : ((Registry.insert reg cid (ConnectionStats.init t)).map Prod.fst).Nodup :=
    nodupKeys_insert reg cid _ h
  have h2 :
      ((Registry.insert (Registry.insert reg cid (ConnectionStats.init t)) cid
        (runEvents (ConnectionStats.init t) events)).map Prod.fst).Nodup :=
    nodupKeys_insert _ cid _ h1
  have hl :
      Registry.lookupR
        (Registry.insert (Registry.insert reg cid (ConnectionStats.init t)) cid
          (runEvents (ConnectionStats.init t) events)) cid
        = some (runEvents (ConnectionStats.init t) events) :=
    lookupR_insert _ cid _
  simp only [proxy_connection_eq_cleanup, proxyCleanup, hl]
  refine ⟨countKey_insert_self reg cid _ h, countKey_insert_self _ cid _ h1,
    countKey_erase_self _ cid h2, lookupR_erase_self _ cid h2, trivial, trivial,
    h1, h2, nodupKeys_erase _ cid h2, trivial, ?_⟩
  intro hk
  rw [countKey_erase_other _ cid k hk, countKey_insert_other _ cid _ k hk,
    countKey_insert_other _ cid _ k hk]

theorem registry_lifecycle_witness :
    Registry.countKey
      (proxy_connection [] "c" 0 [] RelayOutcome.completed 0).atRelayStart "c" = 1 ∧
    Registry.countKey
      (proxy_connection [] "c" 0 [] RelayOutcome.completed 0).final "c" = 0 ∧
    (proxy_connection [] "c" 0 [] RelayOutcome.completed 0).removals = 1 ∧
    Registry.countKey
      (proxy_connection [] "c" 0 [] RelayOutcome.completed 0).final "other"
      = Registry.countKey [] "other" := by
  obtain ⟨a, b, c, d, e, f, g, i1, i2, i3, i4⟩ :=
    registry_lifecycle [] "c" 0 [] RelayOutcome.completed 0 "boom" "other" (by simp)
  exact ⟨a, c, e, i4 (by decide)⟩

/-- C6: counter monotonicity and final totals.  Along every interleaved
sequence of iterations of the two pumps, each of the four counters is
non-decreasing at every step; starting from the fresh stats of the
connection, the final `bytes_sent` equals the total bytes forwarded
TCP-to-WebSocket and `bytes_received` the total bytes forwarded
WebSocket-to-TCP; and each pump itself only grows the counters, with
`bytes_sent` / `bytes_received` advancing by exactly the bytes it
forwarded. -/
theorem counters_monotone_and_total (es : List PumpEvent) (t : ℚ)
    (s : ConnectionStats) (reads : List (List Nat)) (msgs : List WsMessage) :
    List.Chain' StatsLE (statsTrace s es) ∧
    (runEvents (ConnectionStats.init t) es).bytes_sent = tcpBytesTotal es ∧
    (runEvents (ConnectionStats.init t) es).bytes_received = wsBytesTotal es ∧
    StatsLE s (tcp_to_ws reads s).2 ∧
    StatsLE s (ws_to_tcp msgs s).2 ∧
    (tcp_to_ws reads s).2.bytes_sent
      = s.bytes_sent + (((tcp_to_ws reads s).1).map List.length).sum ∧
    (ws_to_tcp msgs s).2.bytes_received
      = s.bytes_received + (((ws_to_tcp msgs s).1).map List.length).sum := by
  refine ⟨statsTrace_chain es s, ?_, ?_, tcp_to_ws_mono reads s,
    ws_to_tcp_mono msgs s, tcp_to_ws_bytes reads s, ws_to_tcp_bytes msgs s⟩
  · rw [runEvents_bytes_sent]
    simp [ConnectionStats.init]
  · rw [runEvents_bytes_received]
    simp [ConnectionStats.init]

/-! ### Orchestrator reduction lemmas -/

theorem handle_websocket_parse_error_eq (cfg : Config) (reg : Registry)
    (remoteAddr path : String) (dial : DialResult) (events : List PumpEvent)
    (outcome : RelayOutcome) (t now : ℚ) (e : String)
    (h : parse_channel_info cfg path = .error e) :
    handle_websocket cfg reg remoteAddr path dial events outcome t now =
      { socketCreated := false, dialAttempts := 0, closesSent := []
        registryInsertions := 0, finalRegistry := reg
        parseExnPropagated := true, relayed := false, blockingOps := [] } := by
  simp only [handle_websocket, h]

theorem handle_websocket_timeout_eq (cfg : Config) (reg : Registry)
    (remoteAddr path : String) (events : List PumpEvent)
    (outcome : RelayOutcome) (t now : ℚ) (ch host : String) (port : Int)
    (h : parse_channel_info cfg path = .ok (ch, host, port)) :
    handle_websocket cfg reg remoteAddr path DialResult.timeoutErr events outcome t now =
      { socketCreated := true, dialAttempts := 1
        closesSent :=
          [(1001, "Connection timeout to " ++ (host ++ ":" ++ toString port))]
        registryInsertions := 0, finalRegistry := reg
        parseExnPropagated := false, relayed := false
        blockingOps := [(BlockingOp.tcpConnect host port 10, ExecCtx.eventLoop)] } := by
  simp only [handle_websocket, h]

theorem handle_websocket_refused_eq (cfg : Config) (reg : Registry)
    (remoteAddr path : String) (events : List PumpEvent)
    (outcome : RelayOutcome) (t now : ℚ) (ch host : String) (port : Int)
    (msg : String) (h : parse_channel_info cfg path = .ok (ch, host, port)) :
    handle_websocket cfg reg remoteAddr path (DialResult.refusedErr msg) events
        outcome t now =
      { socketCreated := true, dialAttempts := 1
        closesSent :=
          [(1001, "Failed to connect to " ++ (host ++ ":" ++ toString port) ++
            (": " ++ msg))]
        registryInsertions := 0, finalRegistry := reg
        parseExnPropagated := false, relayed := false
        blockingOps := [(BlockingOp.tcpConnect host port 10, ExecCtx.eventLoop)] } := by
  simp only [handle_websocket, h]

theorem handle_websocket_success_eq (cfg : Config) (reg : Registry)
    (remoteAddr path : String) (events : List PumpEvent)
    (outcome : RelayOutcome) (t now : ℚ) (ch host : String) (port : Int)
    (h : parse_channel_info cfg path = .ok (ch, host, port)) :
    handle_websocket cfg reg remoteAddr path DialResult.success events outcome t now =
      { socketCreated := true, dialAttempts := 1, closesSent := []
        registryInsertions := 1
        finalRegistry :=
          (proxy_connection reg (connectionId remoteAddr ch host port) t events
            outcome now).final
        parseExnPropagated := false, relayed := true
        blockingOps :=
          (BlockingOp.tcpConnect host port 10, ExecCtx.eventLoop)
            :: tcpRecvOps events } := by
  simp only [handle_websocket, h]

/-- C2 counterexample: on the path `main?port=abc` resolution fails as
claimed, yet the orchestrator sends no close frame at all — the claimed
protocol-error close with a human-readable reason does not happen; the
`ValueError` escapes the handler (`parse_channel_info` is called before
the `try` block of `handle_websocket`). -/
theorem malformed_port_no_close_counterexample :
    (parse_channel_info defaultConfig "main?port=abc").isOk = false ∧
    (handle_websocket defaultConfig [] "1.2.3.4:55" "main?port=abc"
        DialResult.success [] RelayOutcome.completed 0 0).closesSent = [] ∧
    (handle_websocket defaultConfig [] "1.2.3.4:55" "main?port=abc"
        DialResult.success [] RelayOutcome.completed 0 0).parseExnPropagated = true ∧
    (handle_websocket defaultConfig [] "1.2.3.4:55" "main?port=abc"
        DialResult.success [] RelayOutcome.completed 0 0).socketCreated = false :=
  ⟨by rfl, by rfl, by rfl, by rfl⟩

/-- C2 (amended): for every request path on which resolution fails (as
it does for non-integer port text), the failure happens before any TCP
socket is created or dialed and the handler does not proceed to dial or
relay — but the orchestrator itself sends no close frame: the
resolution exception propagates out of the handler (its closure is left
to the serving library). -/
theorem parse_failure_aborts_before_socket (cfg : Config) (reg : Registry)
    (remoteAddr path : String) (dial : DialResult) (events : List PumpEvent)
    (outcome : RelayOutcome) (t now : ℚ) (e : String)
    (h : parse_channel_info cfg path = .error e) :
    (handle_websocket cfg reg remoteAddr path dial events outcome t now).socketCreated
        = false ∧
    (handle_websocket cfg reg remoteAddr path dial events outcome t now).dialAttempts
        = 0 ∧
    (handle_websocket cfg reg remoteAddr path dial events outcome t now).closesSent
        = [] ∧
    (handle_websocket cfg reg remoteAddr path dial events outcome t now).registryInsertions
        = 0 ∧
    (handle_websocket cfg reg remoteAddr path dial events outcome t now).finalRegistry
        = reg ∧
    (handle_websocket cfg reg remoteAddr path dial events outcome t now).parseExnPropagated
        = true ∧
    (handle_websocket cfg reg remoteAddr path dial events outcome t now).relayed
        = false ∧
    (handle_websocket cfg reg remoteAddr path dial events outcome t now).blockingOps
        = [] := by
  rw [handle_websocket_parse_error_eq cfg reg remoteAddr path dial events outcome
    t now e h]
  exact ⟨rfl, rfl, rfl, rfl, rfl, rfl, rfl, rfl⟩

theorem parse_failure_aborts_before_socket_witness :
    (handle_websocket defaultConfig [] "8.8.8.8:2" "main?port=abc"
        DialResult.timeoutErr [] RelayOutcome.completed 0 0).socketCreated = false ∧
    (handle_websocket defaultConfig [] "8.8.8.8:2" "main?port=abc"
        DialResult.timeoutErr [] RelayOutcome.completed 0 0).dialAttempts = 0 ∧
    (handle_websocket defaultConfig [] "8.8.8.8:2" "main?port=abc"
        DialResult.timeoutErr [] RelayOutcome.completed 0 0).closesSent = [] ∧
    (handle_websocket defaultConfig [] "8.8.8.8:2" "main?port=abc"
        DialResult.timeoutErr [] RelayOutcome.completed 0 0).registryInsertions = 0 ∧
    (handle_websocket defaultConfig [] "8.8.8.8:2" "main?port=abc"
        DialResult.timeoutErr [] RelayOutcome.completed 0 0).finalRegistry = [] ∧
    (handle_websocket defaultConfig [] "8.8.8.8:2" "main?port=abc"
        DialResult.timeoutErr [] RelayOutcome.completed 0 0).parseExnPropagated = true ∧
    (handle_websocket defaultConfig [] "8.8.8.8:2" "main?port=abc"
        DialResult.timeoutErr [] RelayOutcome.completed 0 0).relayed = false ∧
    (handle_websocket defaultConfig [] "8.8.8.8:2" "main?port=abc"
        DialResult.timeoutErr [] RelayOutcome.completed 0 0).blockingOps = [] :=
  parse_failure_aborts_before_socket defaultConfig [] "8.8.8.8:2" "main?port=abc"
    DialResult.timeoutErr [] RelayOutcome.completed 0 0
    "invalid literal for int with base 10: abc" (by rfl)

/-- C4: dial failure handling.  When resolution succeeded but the dial
fails (timeout or refusal), the orchestrator closes the WebSocket with
close code 1001 — the dial-failure code the spec calls the
abnormal-closure code — and a reason string containing
`host:port`; the dial is attempted exactly once with no retry; and no
registry entry is ever created for the attempt. -/
theorem dial_failure_closes_ws (cfg : Config) (reg : Registry)
    (remoteAddr path : String) (dial : DialResult) (events : List PumpEvent)
    (outcome : RelayOutcome) (t now : ℚ) (ch host : String) (port : Int)
    (hparse : parse_channel_info cfg path = .ok (ch, host, port))
    (hdial : dial ≠ DialResult.success) :
    (∃ pre suf,
      (handle_websocket cfg reg remoteAddr path dial events outcome t now).closesSent
        = [(1001, pre ++ (host ++ ":" ++ toString port) ++ suf)]) ∧
    (handle_websocket cfg reg remoteAddr path dial events outcome t now).dialAttempts
        = 1 ∧
    (handle_websocket cfg reg remoteAddr path dial events outcome t now).registryInsertions
        = 0 ∧
    (handle_websocket cfg reg remoteAddr path dial events outcome t now).finalRegistry
        = reg ∧
    (handle_websocket cfg reg remoteAddr path dial events outcome t now).relayed
        = false := by
  cases dial with
  | success => exact absurd rfl hdial
  | timeoutErr =>
    rw [handle_websocket_timeout_eq cfg reg remoteAddr path events outcome
      t now ch host port hparse]
    exact ⟨⟨"Connection timeout to ", "", by simp⟩, rfl, rfl, rfl, rfl⟩
  | refusedErr msg =>
    rw [handle_websocket_refused_eq cfg reg remoteAddr path events outcome
      t now ch host port msg hparse]
    exact ⟨⟨"Failed to connect to ", ": " ++ msg, rfl⟩, rfl, rfl, rfl, rfl⟩

theorem dial_failure_closes_ws_witness :
    (handle_websocket defaultConfig [] "9.9.9.9:1" "main" DialResult.timeoutErr
        [] RelayOutcome.completed 0 0).dialAttempts = 1 ∧
    (handle_websocket defaultConfig [] "9.9.9.9:1" "main" DialResult.timeoutErr
        [] RelayOutcome.completed 0 0).registryInsertions = 0 ∧
    (handle_websocket defaultConfig [] "9.9.9.9:1" "main" DialResult.timeoutErr
        [] RelayOutcome.completed 0 0).finalRegistry = [] ∧
    (handle_websocket defaultConfig [] "9.9.9.9:1" "main" DialResult.timeoutErr
        [] RelayOutcome.completed 0 0).relayed = false :=
  (dial_failure_closes_ws defaultConfig [] "9.9.9.9:1" "main"
    DialResult.timeoutErr [] RelayOutcome.completed 0 0 "main" "qemu-spice" 5900
    (by rfl) (by decide)).2

/-- C8: derived fields of the stats snapshot.  For every snapshot,
`duration_seconds` is `now - start_time`; when the duration is positive
the throughput is `(bytes_sent + bytes_received) * 8 /
(duration * 1_000_000)`; when the duration is zero (or negative — the
guard skips the division for every non-positive duration) the
throughput is 0. -/
theorem stats_derived_fields (s : ConnectionStats) (now : ℚ) :
    (s.to_dict now).duration_seconds = now - s.start_time ∧
    (0 < now - s.start_time →
      (s.to_dict now).throughput_mbps
        = ((s.bytes_sent : ℚ) + (s.bytes_received : ℚ)) * 8
            / ((now - s.start_time) * 1000000)) ∧
    (now - s.start_time = 0 → (s.to_dict now).throughput_mbps = 0) ∧
    (now - s.start_time ≤ 0 → (s.to_dict now).throughput_mbps = 0) := by
  refine ⟨rfl, ?_, ?_, ?_⟩
  · intro h
    simp [ConnectionStats.to_dict, h]
  · intro h
    simp [ConnectionStats.to_dict, h]
  · intro h
    simp [ConnectionStats.to_dict, not_lt.mpr h]

theorem stats_derived_fields_witness :
    (ConnectionStats.to_dict
      { bytes_sent := 1000, bytes_received := 500, messages_sent := 3,
        messages_received := 4, start_time := 0 } 2).duration_seconds = 2 - 0 ∧
    (ConnectionStats.to_dict
      { bytes_sent := 1000, bytes_received := 500, messages_sent := 3,
        messages_received := 4, start_time := 0 } 2).throughput_mbps
      = (((1000 : Nat) : ℚ) + ((500 : Nat) : ℚ)) * 8 / ((2 - 0) * 1000000) := by
  obtain ⟨a, b, c, d⟩ :=
    stats_derived_fields
      { bytes_sent := 1000, bytes_received := 500, messages_sent := 3,
        messages_received := 4, start_time := 0 } 2
  exact ⟨a, b (by norm_num)⟩

/-- C7: the statistics push loop.  On the stats path the handler's
entire behaviour is, per loop iteration, one sent message followed by a
one-second sleep, until the client disconnect ends the observation
list; each message carries every currently registered connection id
with its stats snapshot under `connections`, the active relay-pair
count under `active_proxies`, and the loop timestamp; no other action
is performed. -/
theorem stats_push_loop (obs : List LoopObs) (o : LoopObs) :
    handle_stats "/stats" obs
      = (obs.map fun x =>
          [StatsAction.send (statsIteration x), StatsAction.sleep 1]).flatten ∧
    sentMessages (handle_stats "/stats" obs) = obs.map statsIteration ∧
    (sentMessages (handle_stats "/stats" obs)).length = obs.length ∧
    (∀ a ∈ handle_stats "/stats" obs,
      (∃ m, a = StatsAction.send m) ∨ a = StatsAction.sleep 1) ∧
    (statsIteration o).connections
      = o.reg.map (fun p => (p.1, p.2.to_dict o.now)) ∧
    (statsIteration o).active_proxies = o.activePairs ∧
    (statsIteration o).timestamp = o.now := by
  have hflat : ∀ l : List LoopObs,
      sentMessages ((l.map fun x =>
        [StatsAction.send (statsIteration x), StatsAction.sleep 1]).flatten)
        = l.map statsIteration := by
    intro l
    induction l with
    | nil => rfl
    | cons x rest ih =>
      simp only [List.map_cons, List.flatten_cons, sentMessages,
        List.filterMap_append, List.filterMap_cons] at ih ⊢
      simpa using ih
  have heq : handle_stats "/stats" obs
      = (obs.map fun x =>
          [StatsAction.send (statsIteration x), StatsAction.sleep 1]).flatten := by
    simp [handle_stats]
  have hsent : sentMessages (handle_stats "/stats" obs) = obs.map statsIteration := by
    rw [heq]
    exact hflat obs
  refine ⟨heq, hsent, by rw [hsent, List.length_map], ?_, rfl, rfl, rfl⟩
  intro a ha
  rw [heq] at ha
  simp only [List.mem_flatten, List.mem_map] at ha
  obtain ⟨l, ⟨x, hx, rfl⟩, hal⟩ := ha
  simp only [List.mem_cons, List.not_mem_nil, or_false] at hal
  rcases hal with h | h
  · exact Or.inl ⟨statsIteration x, h⟩
  · exact Or.inr h

theorem stats_push_loop_witness :
    sentMessages (handle_stats "/stats" [LoopObs.mk [] 0 1])
      = [LoopObs.mk [] 0 1].map statsIteration ∧
    (statsIteration (LoopObs.mk [] 0 1)).active_proxies = 0 ∧
    (statsIteration (LoopObs.mk [] 0 1)).timestamp = 1 :=
  ⟨(stats_push_loop [LoopObs.mk [] 0 1] (LoopObs.mk [] 0 1)).2.1,
    (stats_push_loop [LoopObs.mk [] 0 1] (LoopObs.mk [] 0 1)).2.2.2.2.2.1,
    (stats_push_loop [LoopObs.mk [] 0 1] (LoopObs.mk [] 0 1)).2.2.2.2.2.2⟩

/-- C9 counterexample: not every blocking socket operation of a
connection runs on the worker pool — the orchestrator's TCP connect
call is executed directly on the event loop. -/
theorem connect_on_event_loop_counterexample :
    (BlockingOp.tcpConnect "qemu-spice" 5900 10, ExecCtx.eventLoop) ∈
      (handle_websocket defaultConfig [] "c" "main" DialResult.success
        [PumpEvent.tcpForward [1]] RelayOutcome.completed 0 0).blockingOps ∧
    ExecCtx.eventLoop ≠ ExecCtx.workerPool := by
  constructor
  · show _ ∈ (BlockingOp.tcpConnect "qemu-spice" 5900 10, ExecCtx.eventLoop)
      :: tcpRecvOps [PumpEvent.tcpForward [1]]
    exact List.mem_cons_self _ _
  · intro h
    cases h

theorem mem_tcpRecvOps (events : List PumpEvent) (p : BlockingOp × ExecCtx)
    (h : p ∈ tcpRecvOps events) :
    p = (BlockingOp.tcpRecv 65536, ExecCtx.workerPool) := by
  simp only [tcpRecvOps, List.mem_filterMap] at h
  obtain ⟨e, _, hmatch⟩ := h
  cases e with
  | tcpForward d => simpa using hmatch.symm
  | wsForward m => simp at hmatch

/-- C9 (amended): for every connection whose path resolves, each raw
TCP read of the egress pump is dispatched to the bounded worker thread
pool, but the single TCP connect call of the orchestrator runs directly
on the event loop, bounded only by its 10-second socket timeout. -/
theorem blocking_ops_contexts (cfg : Config) (reg : Registry)
    (remoteAddr path : String) (dial : DialResult) (events : List PumpEvent)
    (outcome : RelayOutcome) (t now : ℚ) (ch host : String) (port : Int)
    (hparse : parse_channel_info cfg path = .ok (ch, host, port)) :
    (∀ p ∈ (handle_websocket cfg reg remoteAddr path dial events outcome t now).blockingOps,
      (∀ n, p.1 = BlockingOp.tcpRecv n → p.2 = ExecCtx.workerPool) ∧
      (∀ h2 po ts, p.1 = BlockingOp.tcpConnect h2 po ts → p.2 = ExecCtx.eventLoop)) ∧
    (BlockingOp.tcpConnect host port 10, ExecCtx.eventLoop) ∈
      (handle_websocket cfg reg remoteAddr path dial events outcome t now).blockingOps := by
  cases dial with
  | success =>
    rw [handle_websocket_success_eq cfg reg remoteAddr path events outcome
      t now ch host port hparse]
    refine ⟨?_, List.mem_cons_self _ _⟩
    intro p hp
    rcases List.mem_cons.mp hp with h | h
    · subst h
      exact ⟨(fun n hn => nomatch hn), (fun _ _ _ _ => rfl)⟩
    · rw [mem_tcpRecvOps events p h]
      exact ⟨(fun _ _ => rfl), (fun _ _ _ hn => nomatch hn)⟩
  | timeoutErr =>
    rw [handle_websocket_timeout_eq cfg reg remoteAddr path events outcome
      t now ch host port hparse]
    refine ⟨?_, List.mem_singleton.mpr rfl⟩
    intro p hp
    rw [List.mem_singleton] at hp
    subst hp
    exact ⟨(fun n hn => nomatch hn), (fun _ _ _ _ => rfl)⟩
  | refusedErr msg =>
    rw [handle_websocket_refused_eq cfg reg remoteAddr path events outcome
      t now ch host port msg hparse]
    refine ⟨?_, List.mem_singleton.mpr rfl⟩
    intro p hp
    rw [List.mem_singleton] at hp
    subst hp
    exact ⟨(fun n hn => nomatch hn), (fun _ _ _ _ => rfl)⟩

theorem blocking_ops_contexts_witness :
    (BlockingOp.tcpConnect "qemu-spice" 5901 10, ExecCtx.eventLoop) ∈
      (handle_websocket defaultConfig [] "w" "display" DialResult.timeoutErr []
        RelayOutcome.completed 0 0).blockingOps :=
  (blocking_ops_contexts defaultConfig [] "w" "display" DialResult.timeoutErr []
    RelayOutcome.completed 0 0 "display" "qemu-spice" 5901 (by rfl)).2
